import Mathlib

/-!
Verification of the Ralph Wiggum autonomous iteration supervisor
(orchestration core: stop hook, strategy engine, transcript analyzer,
cycle supervisor), shallowly embedded from the repository sources.

Shell scripts `hooks/stop-hook.sh` and `scripts/run-supervisor.sh` are
embedded from their source text.  The TypeScript scripts
(`strategy-engine.ts`, `analyze-transcript.ts`, `generate-summary.ts`)
are not present in the tree — only their test suites are — so those
parts are modelled from the specification and pinned by the behaviour
the in-tree tests demand; each such definition is marked in its doc
comment.
-/

namespace Ralph

/-! ## Character-list and string utilities -/

/-- Whitespace in the sense of the perl `\s` class used by the stop hook
(space, tab, newline, carriage return, form feed). -/
def isWsChar (c : Char) : Bool :=
  c == ' ' || c == '\t' || c == '\n' || c == '\r' || c == '\x0c'

/-- Boolean test that `p` is a leading segment of `l`. -/
def leadSeg : List Char → List Char → Bool
  | [], _ => true
  | _ :: _, [] => false
  | p :: ps, c :: cs => p == c && leadSeg ps cs

/-- Remainder of `l` strictly after the first occurrence of `p`;
`none` when `p` does not occur in `l`. -/
def afterFirstSub (p : List Char) : List Char → Option (List Char)
  | [] => if p.isEmpty then some [] else none
  | c :: cs =>
    if leadSeg p (c :: cs) then some ((c :: cs).drop p.length)
    else afterFirstSub p cs

/-- Segment of `l` strictly before the first occurrence of `p`;
`none` when `p` does not occur in `l`. -/
def beforeFirstSub (p : List Char) : List Char → Option (List Char)
  | [] => if p.isEmpty then some [] else none
  | c :: cs =>
    if leadSeg p (c :: cs) then some []
    else (beforeFirstSub p cs).map (fun t => c :: t)

/-- Substring occurrence test, defined from `afterFirstSub` so that the
two notions agree definitionally. -/
def strHasSub (s pat : String) : Bool :=
  (afterFirstSub pat.data s.data).isSome

/-- Boolean test that `pre` is a leading segment of `s`. -/
def strBegins (pre s : String) : Bool :=
  leadSeg pre.data s.data

/-- Splits a character list into maximal whitespace-free words. -/
def wordsAux (cur : List Char) : List Char → List (List Char)
  | [] => if cur.isEmpty then [] else [cur.reverse]
  | c :: cs =>
    if isWsChar c then
      if cur.isEmpty then wordsAux [] cs else cur.reverse :: wordsAux [] cs
    else wordsAux (c :: cur) cs

/-- Normalisation applied by the stop hook's perl one-liner:
trim leading/trailing whitespace and collapse every internal whitespace
run to a single space (`s/^\s+|\s+$//g; s/\s+/ /g`). -/
def normalizeWs (s : String) : String :=
  String.intercalate (String.mk [' ']) ((wordsAux [] s.data).map String.mk)

/-! ## Transcript model

`analyze-transcript.ts` reads a JSONL transcript of role-tagged
messages; a message contributes its text blocks and any tool-invocation
file paths.  We model an already-parsed transcript. -/

inductive Role where
  | user
  | assistant
  | system
deriving DecidableEq, Repr

structure Message where
  role : Role
  text : String
  toolFiles : List String := []
deriving DecidableEq, Repr

/-- Texts of the assistant-authored messages, in transcript order. -/
def assistantTexts (msgs : List Message) : List String :=
  (msgs.filter (fun m => m.role == Role.assistant)).map (fun m => m.text)

structure ErrorEntry where
  pattern : String
  sample : String
deriving DecidableEq, Repr

structure RepeatedError where
  pattern : String
  count : Nat
deriving DecidableEq, Repr

structure TranscriptAnalysis where
  errors : List ErrorEntry
  repeated_errors : List RepeatedError
  files_modified : List String
  tests_run : Bool
  tests_passed : Bool
  tests_failed : Bool
  phase_completions : List String
  meaningful_changes : Bool
deriving DecidableEq, Repr

/-- Modelled from the spec: `analyze-transcript.ts` is absent from the
tree; the spec prescribes an ordered table of labelled error patterns
(compilation error, syntax error, test failure, timeout, missing file,
unresolved module).  Labels and trigger substrings follow the in-tree
test fixtures of `part_002`. -/
def errorPatterns : List (String × String) :=
  [ ("TypeScript compilation error", "error TS"),
    ("JavaScript syntax error", "SyntaxError"),
    ("Test failure", "FAILED"),
    ("Timeout error", "timed out"),
    ("File not found", "ENOENT"),
    ("Module resolution error", "Cannot find module") ]

/-- Number of assistant messages matching a pattern's trigger. -/
def matchCount (msgs : List Message) (needle : String) : Nat :=
  (assistantTexts msgs).countP (fun t => strHasSub t needle)

/-- Modelled from the spec: every pattern match on an assistant message
records the label and a truncated sample. -/
def errorsOf (msgs : List Message) : List ErrorEntry :=
  ((assistantTexts msgs).map (fun t =>
    (errorPatterns.filter (fun p => strHasSub t p.2)).map
      (fun p => ErrorEntry.mk p.1 (String.mk (t.data.take 100))))).flatten

/-- Per-label occurrence counts, in the pattern table's declared order. -/
def repeatedCountsBase (msgs : List Message) : List RepeatedError :=
  errorPatterns.map (fun p => RepeatedError.mk p.1 (matchCount msgs p.2))

/-- Stable descending insertion by count: an element is placed before
the first strictly smaller count, so earlier elements win ties. -/
def insertByCount (e : RepeatedError) : List RepeatedError → List RepeatedError
  | [] => [e]
  | f :: fs => if f.count < e.count then e :: f :: fs else f :: insertByCount e fs

/-- Stable sort by count descending. -/
def sortByCountDesc (l : List RepeatedError) : List RepeatedError :=
  l.foldl (fun acc e => insertByCount e acc) []

/-- Modelled from the spec: labels reaching two or more occurrences are
emitted, sorted by count descending; ties keep the pattern table's
discovery order (stable sort). -/
def repeatedErrors (msgs : List Message) : List RepeatedError :=
  sortByCountDesc ((repeatedCountsBase msgs).filter (fun e => 2 ≤ e.count))

/-- Backtick character, used for back-ticked spans and code fences. -/
def tickChar : Char := Char.ofNat 96

/-- Splits a character list at every occurrence of `c`. -/
def splitOnCharAux (c : Char) (cur : List Char) : List Char → List (List Char)
  | [] => [cur.reverse]
  | d :: ds =>
    if d == c then cur.reverse :: splitOnCharAux c [] ds
    else splitOnCharAux c (d :: cur) ds

/-- Elements at the odd positions of a list (the segments that lie
between an opening and a closing delimiter). -/
def oddSlots : List α → List α
  | [] => []
  | [_] => []
  | _ :: b :: rest => b :: oddSlots rest

/-- Modelled from the spec: free-text file mentions are back-ticked
spans that look like paths (contain a slash or a dot). -/
def textFiles (t : String) : List String :=
  ((oddSlots (splitOnCharAux tickChar [] t.data)).filter
    (fun s => s.contains '/' || s.contains '.')).map String.mk

/-- Modelled from the spec: union of structured tool-invocation paths
and free-text mentions in assistant messages, deduplicated by exact
path string. -/
def filesModified (msgs : List Message) : List String :=
  (((msgs.filter (fun m => m.role == Role.assistant)).map
    (fun m => m.toolFiles ++ textFiles m.text)).flatten).dedup

/-- Modelled from the spec: recognition of test-runner invocation text. -/
def testsRunIn (t : String) : Bool :=
  strHasSub t ("npm test") || strHasSub t ("bun test") || strHasSub t ("pytest")

def testsRun (msgs : List Message) : Bool :=
  (assistantTexts msgs).any testsRunIn

def testsPassed (msgs : List Message) : Bool :=
  (assistantTexts msgs).any (fun t => strHasSub t ("passed") || strHasSub t ("passing"))

def testsFailed (msgs : List Message) : Bool :=
  (assistantTexts msgs).any (fun t => strHasSub t ("failed") || strHasSub t ("failing"))

/-- Modelled from the spec: the fixed completion-phrase vocabulary,
matched case-insensitively, mapped to tags. -/
def phaseChecks : List (String × String) :=
  [ ("phase 1 complete", "phase-1"),
    ("phase 2 complete", "phase-2"),
    ("phase 3 complete", "phase-3"),
    ("phase 4 complete", "phase-4"),
    ("phase 5 complete", "phase-5"),
    ("tests passing", "tests-passing"),
    ("tests passed", "tests-passing"),
    ("implementation complete", "implementation"),
    ("setup done", "setup"),
    ("setup complete", "setup") ]

/-- Character-list based lowercasing (kernel-reducible). -/
def lowerStr (s : String) : String :=
  String.mk (s.data.map Char.toLower)

def phaseCompletions (msgs : List Message) : List String :=
  ((phaseChecks.filter
    (fun pc => (assistantTexts msgs).any (fun t => strHasSub (lowerStr t) pc.1))).map
      (fun pc => pc.2)).dedup

/-- Character threshold above which assistant output alone counts as
meaningful (pinned by the in-tree test: strictly more than 500). -/
def MEANINGFUL_OUTPUT_THRESHOLD : Nat := 500

/-- Combined assistant output of the iteration. -/
def assistantOutput (msgs : List Message) : String :=
  String.intercalate (String.mk ['\n']) (assistantTexts msgs)

/-- Fenced code block marker. -/
def codeFence : String := String.mk [tickChar, tickChar, tickChar]

/-- Modelled from the spec: `meaningfulChanges` is true iff at least one
file was modified, a test run was detected, a phase completed, output
length exceeds the fixed threshold, or the output has a code fence. -/
def meaningfulChanges (msgs : List Message) : Bool :=
  !(filesModified msgs).isEmpty || testsRun msgs || !(phaseCompletions msgs).isEmpty
    || MEANINGFUL_OUTPUT_THRESHOLD < (assistantOutput msgs).length
    || strHasSub (assistantOutput msgs) codeFence

/-- Modelled from the spec: the full analyzer output. -/
def analyzeTranscript (msgs : List Message) : TranscriptAnalysis :=
  { errors := errorsOf msgs
    repeated_errors := repeatedErrors msgs
    files_modified := filesModified msgs
    tests_run := testsRun msgs
    tests_passed := testsPassed msgs
    tests_failed := testsFailed msgs
    phase_completions := phaseCompletions msgs
    meaningful_changes := meaningfulChanges msgs }

/-! ## Strategy engine

The phase thresholds and the base phase function are embedded from the
extracted implementation logic in
`scripts/__tests__/strategy-engine.test.ts` (lines 58-71), which is in
the tree; the surrounding engine is modelled from the spec. -/

inductive StrategyName where
  | explore
  | focused
  | cleanup
  | recovery
deriving DecidableEq, Repr

inductive StrategyAction where
  | cont
  | switch
deriving DecidableEq, Repr

structure StrategyResult where
  strategy : StrategyName
  reason : String
  action : StrategyAction
  guidance : List String
deriving DecidableEq, Repr

def EXPLORE_END : Int := 10
def FOCUSED_END : Int := 35
def REPEATED_ERROR_THRESHOLD : Nat := 3
def STUCK_THRESHOLD : Nat := 5

/-- Embedded from `strategy-engine.test.ts` (the extracted pure
function `determineBaseStrategy`). -/
def determineBaseStrategy (iteration : Int) : StrategyName :=
  if iteration ≤ EXPLORE_END then StrategyName.explore
  else if iteration ≤ FOCUSED_END then StrategyName.focused
  else StrategyName.cleanup

structure StrategyInfo where
  current : StrategyName
  changed_at : Nat
deriving DecidableEq, Repr

structure ProgressInfo where
  stuck_count : Nat
  last_meaningful_change : Nat
deriving DecidableEq, Repr

structure RalphState where
  active : Bool
  iteration : Nat
  max_iterations : Nat
  completion_promise : String
  session_id : String
  checkpoint_interval : Nat
  checkpoint_mode : String
  strategy : StrategyInfo
  progress : ProgressInfo
  prompt_text : String
deriving DecidableEq, Repr

def strategyLabel : StrategyName → String
  | StrategyName.explore => "explore"
  | StrategyName.focused => "focused"
  | StrategyName.cleanup => "cleanup"
  | StrategyName.recovery => "recovery"

/-- Modelled from the spec: the reason always appends a progress
clause, a warning only after iteration 1. -/
def progressClause (state : RalphState) (analysis : TranscriptAnalysis) : String :=
  if analysis.meaningful_changes then " - making progress"
  else if 1 < state.iteration then " - warning: no meaningful changes detected"
  else ""

/-- Modelled from the spec: each strategy carries a fixed guidance list;
recovery guidance names the specific repeated failure. -/
def guidanceFor (s : StrategyName) (offending : String) : List String :=
  match s with
  | StrategyName.explore =>
      ["Explore distinct approaches before committing to one"]
  | StrategyName.focused =>
      ["Commit to the best approach and implement incrementally with tests"]
  | StrategyName.cleanup =>
      ["Finish incomplete work and stabilize the codebase"]
  | StrategyName.recovery =>
      ["Break the repeated failure: " ++ offending,
       "Consider reverting recent changes"]

/-- Modelled from the spec: `strategy-engine.ts` is absent from the
tree.  The recovery condition is evaluated first and unconditionally:
any repeated error at or above the repeat threshold (scanning the
analyzer's count-descending list in order, so the first entry at or
above threshold), or a stuck counter at or above its threshold, yields
`recovery` with `action = switch`; otherwise the phase table applies
and the action is `switch` exactly when the phase differs from the
state's current strategy. -/
def determineStrategy (state : RalphState) (analysis : TranscriptAnalysis) :
    StrategyResult :=
  match analysis.repeated_errors.find?
      (fun e => REPEATED_ERROR_THRESHOLD ≤ e.count) with
  | some e =>
    { strategy := StrategyName.recovery
      reason := "Recovery: repeated error pattern " ++ e.pattern
        ++ " seen " ++ toString e.count ++ " times"
        ++ progressClause state analysis
      action := StrategyAction.switch
      guidance := guidanceFor StrategyName.recovery e.pattern }
  | none =>
    if STUCK_THRESHOLD ≤ state.progress.stuck_count then
      { strategy := StrategyName.recovery
        reason := "Stuck: " ++ toString state.progress.stuck_count
          ++ " iterations without meaningful changes"
          ++ progressClause state analysis
        action := StrategyAction.switch
        guidance := guidanceFor StrategyName.recovery ("stuck condition") }
    else
      let base := determineBaseStrategy (state.iteration : Int)
      { strategy := base
        reason := "Iteration " ++ toString state.iteration ++ ": "
          ++ strategyLabel base ++ " phase"
          ++ progressClause state analysis
        action := if base = state.strategy.current then StrategyAction.cont
          else StrategyAction.switch
        guidance := guidanceFor base "" }

/-! ## Stop hook (`hooks/stop-hook.sh`)

The hook is embedded as a decision function over the parsed state-file
frontmatter and the per-boundary observations, following the script's
branch order: max-iterations check, transcript checks, completion
promise, state update under lock, checkpoint pause, context-threshold
cycle restart, continue. -/

/-- Parsed frontmatter fields of `.claude/ralph-loop.local.md` used by
the stop hook. -/
structure LoopFileState where
  iteration : Nat
  max_iterations : Nat
  completion_promise : String
  session_id : String
  checkpoint_interval : Nat
  checkpoint_pause : Bool
  cycle_number : Nat
  strategy_current : StrategyName
  stuck_count : Nat
  prompt_text : String
deriving DecidableEq, Repr

/-- Per-boundary observations of one stop event. -/
structure IterObs where
  transcriptFound : Bool
  hasAssistantMsg : Bool
  lastOutput : String
  transcriptBytes : Nat
  lockAcquired : Bool
  analysis : TranscriptAnalysis
deriving DecidableEq, Repr

structure CycleHandoff where
  session_id : String
  cycle_number : Nat
  original_objective : String
  context_pct : Nat
deriving DecidableEq, Repr

inductive StopDecision where
  | finish (completionReason : String)
  | halt
  | lockAbort
  | pauseCheckpoint (next : Nat)
  | restartCycle (pct : Nat) (handoff : CycleHandoff)
  | continueLoop (next : Nat) (strat : StrategyName)
deriving DecidableEq, Repr

/-- TUI-mode context tracking constants of the stop hook. -/
def CONTEXT_THRESHOLD : Nat := 60

def CONTEXT_WINDOW : Nat := 200000

/-- Lock acquisition timeout of the state update (`flock -x -w 5`). -/
def LOCK_TIMEOUT_SECONDS : Nat := 5

/-- A completion promise is configured when the parsed field is neither
the literal string null nor empty. -/
def promiseConfigured (p : String) : Bool :=
  p ≠ "null" && p ≠ ""

def openTag : List Char := "<promise>".data

def closeTag : List Char := "</promise>".data

/-- The perl extraction
`s/.*?<promise>(.*?)<\/promise>.*/$1/s; s/^\s+|\s+$//g; s/\s+/ /g`:
when a delimited tag occurs, its (first) content is kept, otherwise the
whole text stays; the result is trimmed and whitespace-collapsed. -/
def extractPromise (out : String) : String :=
  match afterFirstSub openTag out.data with
  | none => normalizeWs out
  | some rest =>
    match beforeFirstSub closeTag rest with
    | none => normalizeWs out
    | some mid => normalizeWs (String.mk mid)

/-- The STATE_JSON object the hook hands to the TypeScript scripts
(`changed_at` and `last_meaningful_change` are hardcoded to 0). -/
def toRalphState (st : LoopFileState) : RalphState :=
  { active := true
    iteration := st.iteration
    max_iterations := st.max_iterations
    completion_promise := st.completion_promise
    session_id := st.session_id
    checkpoint_interval := st.checkpoint_interval
    checkpoint_mode := if st.checkpoint_pause then "pause" else "notify"
    strategy := StrategyInfo.mk st.strategy_current 0
    progress := ProgressInfo.mk st.stuck_count 0
    prompt_text := st.prompt_text }

/-- Estimated token count: transcript bytes divided by 4. -/
def estimatedTokens (bytes : Nat) : Nat := bytes / 4

/-- Estimated context percentage. -/
def estimatedPct (bytes : Nat) : Nat :=
  estimatedTokens bytes * 100 / CONTEXT_WINDOW

/-- Decision function of `stop-hook.sh`, in the script's branch order. -/
def stopHookDecision (st : LoopFileState) (obs : IterObs) : StopDecision :=
  if 0 < st.max_iterations ∧ st.max_iterations ≤ st.iteration then
    StopDecision.finish "max_iterations"
  else if ¬ obs.transcriptFound then StopDecision.halt
  else if ¬ obs.hasAssistantMsg then StopDecision.halt
  else if obs.lastOutput = "" then StopDecision.halt
  else if promiseConfigured st.completion_promise
      ∧ extractPromise obs.lastOutput ≠ ""
      ∧ extractPromise obs.lastOutput = st.completion_promise then
    StopDecision.finish "promise"
  else if ¬ obs.lockAcquired then StopDecision.lockAbort
  else if 0 < st.checkpoint_interval
      ∧ (st.iteration + 1) % st.checkpoint_interval = 0
      ∧ st.checkpoint_pause then
    StopDecision.pauseCheckpoint (st.iteration + 1)
  else if CONTEXT_WINDOW * CONTEXT_THRESHOLD / 100
      < estimatedTokens obs.transcriptBytes then
    StopDecision.restartCycle (estimatedPct obs.transcriptBytes)
      (CycleHandoff.mk st.session_id st.cycle_number st.prompt_text
        (estimatedPct obs.transcriptBytes))
  else
    StopDecision.continueLoop (st.iteration + 1)
      (determineStrategy (toRalphState st) obs.analysis).strategy

/-- Modelled from the spec: `generate-summary.ts` is absent from the
tree; the outcome labels per completion reason are pinned by its
in-tree test suite (`generate-summary.test.ts`): promise → COMPLETED,
cancelled → CANCELLED, max_iterations → PARTIAL or INCOMPLETE
depending on progress, error → ERROR, context_threshold → CYCLING,
anything else → UNKNOWN. -/
def summaryOutcome (reason : String) (hasProgress : Bool) : String :=
  if reason = "promise" then "COMPLETED"
  else if reason = "cancelled" then "CANCELLED"
  else if reason = "max_iterations" then
    (if hasProgress then "PARTIAL" else "INCOMPLETE")
  else if reason = "error" then "ERROR"
  else if reason = "context_threshold" then "CYCLING"
  else "UNKNOWN"

/-- Effect of a continuing boundary on the persisted state: iteration
and current strategy are rewritten. -/
def applyContinue (st : LoopFileState) (next : Nat) (strat : StrategyName) :
    LoopFileState :=
  { st with iteration := next, strategy_current := strat }

inductive RunResult where
  | finished (completionReason : String) (finalIteration : Nat)
  | blocked (d : StopDecision) (st : LoopFileState)
  | outOfFuel (st : LoopFileState)
deriving DecidableEq, Repr

/-- Iterated boundary processing: each stop event either ends the loop,
blocks it, or continues with the updated persisted state. -/
def runLoop (obsAt : Nat → IterObs) : Nat → LoopFileState → RunResult
  | 0, st => RunResult.outOfFuel st
  | fuel + 1, st =>
    match stopHookDecision st (obsAt st.iteration) with
    | StopDecision.finish r => RunResult.finished r st.iteration
    | StopDecision.continueLoop next strat =>
        runLoop obsAt fuel (applyContinue st next strat)
    | d => RunResult.blocked d st

/-! ## Cycle supervisor (`scripts/run-supervisor.sh`)

Embedded as a step function on the supervisor's cycle/retry counters,
dispatching on the headless cycle's exit code exactly as the script's
`case $EXIT_CODE in` does, including the `while [[ $CYCLE -le
$MAX_CYCLES ]]` guard that the incremented cycle must pass to start
another running cycle. -/

def MAX_RETRIES : Nat := 2

inductive SupStatus where
  | running (cycle : Nat)
  | completedRun
  | failedRun (exitCode : Nat)
  | maxCyclesReached
deriving DecidableEq, Repr

structure SupOutcome where
  status : SupStatus
  retry : Nat
  handoffSaved : Bool
deriving DecidableEq, Repr

/-- One supervisor reaction to a finished cycle with the given exit
code, at cycle counter `cycle` (which satisfies the loop guard
`cycle ≤ maxCycles`) and accumulated retry counter `retry`. -/
def supervisorStep (maxCycles cycle retry : Nat) (exitCode : Nat) : SupOutcome :=
  if exitCode = 0 then
    SupOutcome.mk SupStatus.completedRun retry false
  else if exitCode = 100 then
    SupOutcome.mk
      (if cycle + 1 ≤ maxCycles then SupStatus.running (cycle + 1)
       else SupStatus.maxCyclesReached)
      0 true
  else if retry + 1 ≤ MAX_RETRIES then
    SupOutcome.mk (SupStatus.running cycle) (retry + 1) false
  else
    SupOutcome.mk (SupStatus.failedRun exitCode) (retry + 1) false

/-! ## State-file update under lock (`stop-hook.sh` step 9)

The sed rewrite and the temp-write-then-rename protocol, modelled as a
sequence of primitive filesystem operations so that every reader-visible
intermediate state of the state file can be enumerated. -/

/-- The sed program
`s#^iteration: .*#iteration: NEXT#` and
`s#^  current: .*#  current: "STRAT"#`, applied to one line. -/
def sedLine (next : Nat) (strat : String) (line : String) : String :=
  if strBegins ("iteration: ") line then "iteration: " ++ toString next
  else if strBegins ("  current: ") line then
    "  current: " ++ String.mk ['"'] ++ strat ++ String.mk ['"']
  else line

/-- The sed rewrite over the whole state file. -/
def sedUpdate (next : Nat) (strat : String) (file : List String) : List String :=
  file.map (sedLine next strat)

structure FsState where
  stateFile : List String
  tempFile : List String
deriving DecidableEq, Repr

inductive FsOp where
  | truncateTemp
  | appendTemp (line : String)
  | renameTempOverState
  | removeTemp
deriving DecidableEq, Repr

def applyFsOp (fs : FsState) : FsOp → FsState
  | FsOp.truncateTemp => { fs with tempFile := [] }
  | FsOp.appendTemp l => { fs with tempFile := fs.tempFile ++ [l] }
  | FsOp.renameTempOverState =>
      FsState.mk fs.tempFile []
  | FsOp.removeTemp => { fs with tempFile := [] }

def applyFsOps (fs : FsState) (ops : List FsOp) : FsState :=
  ops.foldl applyFsOp fs

/-- Filesystem operations of the locked state update: on lock failure
nothing happens; otherwise sed streams into the temp file and, when the
result is non-empty, the temp file is renamed over the state file
(`mv "$TEMP_FILE" "$RALPH_STATE_FILE"`), else the temp file is removed
and the original kept. -/
def boundaryOps (locked : Bool) (next : Nat) (strat : String)
    (file : List String) : List FsOp :=
  if ¬ locked then []
  else
    FsOp.truncateTemp ::
      ((sedUpdate next strat file).map FsOp.appendTemp
        ++ (if sedUpdate next strat file ≠ [] then [FsOp.renameTempOverState]
            else [FsOp.removeTemp]))

/-! ## State-file text layer

The frontmatter is the region between the first two `---` marker lines
(`parse_frontmatter`); the prompt body is everything after the second
marker, markers excluded (the awk extraction `/^---$/{i++; next} i>=2`).
Nested fields are grepped from the frontmatter by a two-space-indented
`key:` anchor (`get_yaml_nested_value`). -/

def fmAfter : List String → List String
  | [] => []
  | l :: ls => if l = "---" then ls else fmAfter ls

def fmTake : List String → List String
  | [] => []
  | l :: ls => if l = "---" then [] else l :: fmTake ls

def frontmatterOf (file : List String) : List String :=
  fmTake (fmAfter file)

def bodyOf (file : List String) : List String :=
  (fmAfter (fmAfter file)).filter (fun l => l ≠ "---")

/-- First frontmatter line carrying the given nested key. -/
def nestedFieldLine (file : List String) (key : String) : Option String :=
  (frontmatterOf file).find? (fun l => strBegins ("  " ++ key ++ ":") l)

/-- A whole lifetime of iteration-boundary rewrites. -/
def applyUpdates (file : List String) : List (Nat × String) → List String
  | [] => file
  | u :: rest => applyUpdates (sedUpdate u.1 u.2 file) rest

/-! ## Lemmas about the stable descending sort -/

theorem mem_insertByCount {x e : RepeatedError} {l : List RepeatedError} :
    x ∈ insertByCount e l ↔ x = e ∨ x ∈ l := by
  induction l with
  | nil => simp [insertByCount]
  | cons f fs ih =>
    by_cases h : f.count < e.count
    · simp only [insertByCount, h, if_true, List.mem_cons]
    · simp only [insertByCount, h, if_false, List.mem_cons, ih]
      tauto

theorem insertByCount_perm (e : RepeatedError) (l : List RepeatedError) :
    List.Perm (insertByCount e l) (e :: l) := by
  induction l with
  | nil => simp [insertByCount]
  | cons f fs ih =>
    by_cases h : f.count < e.count
    · simp [insertByCount, h]
    · simp only [insertByCount, h, if_false]
      exact (List.Perm.cons f ih).trans (List.Perm.swap e f fs)

theorem pairwise_insertByCount (e : RepeatedError) (l : List RepeatedError)
    (h : l.Pairwise (fun a b => b.count ≤ a.count)) :
    (insertByCount e l).Pairwise (fun a b => b.count ≤ a.count) := by
  induction l with
  | nil => simp [insertByCount]
  | cons f fs ih =>
    rcases List.pairwise_cons.mp h with ⟨hf, hfs⟩
    by_cases hc : f.count < e.count
    · simp only [insertByCount, hc, if_true]
      refine List.pairwise_cons.mpr ⟨?_, h⟩
      intro x hx
      rcases List.mem_cons.mp hx with rfl | hx
      · exact Nat.le_of_lt hc
      · exact Nat.le_trans (hf x hx) (Nat.le_of_lt hc)
    · simp only [insertByCount, hc, if_false]
      refine List.pairwise_cons.mpr ⟨?_, ih hfs⟩
      intro x hx
      rcases mem_insertByCount.mp hx with rfl | hx
      · exact Nat.le_of_not_lt hc
      · exact hf x hx

theorem foldl_insertByCount_perm :
    ∀ (l acc : List RepeatedError),
      List.Perm (l.foldl (fun acc e => insertByCount e acc) acc) (acc ++ l)
  | [], acc => by simp
  | x :: xs, acc =>
    ((foldl_insertByCount_perm xs (insertByCount x acc)).trans
      ((insertByCount_perm x acc).append_right xs)).trans List.perm_middle.symm

theorem sortByCountDesc_perm (l : List RepeatedError) :
    List.Perm (sortByCountDesc l) l := by
  simpa using foldl_insertByCount_perm l []

theorem pairwise_foldl_insertByCount :
    ∀ (l acc : List RepeatedError),
      acc.Pairwise (fun a b => b.count ≤ a.count) →
      (l.foldl (fun acc e => insertByCount e acc) acc).Pairwise
        (fun a b => b.count ≤ a.count)
  | [], _acc, h => h
  | x :: xs, acc, h =>
    pairwise_foldl_insertByCount xs (insertByCount x acc)
      (pairwise_insertByCount x acc h)

theorem sortByCountDesc_pairwise (l : List RepeatedError) :
    (sortByCountDesc l).Pairwise (fun a b => b.count ≤ a.count) :=
  pairwise_foldl_insertByCount l [] (by simp)

theorem mem_repeatedErrors {msgs : List Message} {e : RepeatedError} :
    e ∈ repeatedErrors msgs ↔
      ∃ p ∈ errorPatterns, e.pattern = p.1 ∧ e.count = matchCount msgs p.2
        ∧ 2 ≤ e.count := by
  rw [repeatedErrors, (sortByCountDesc_perm _).mem_iff, List.mem_filter,
    repeatedCountsBase]
  simp only [List.mem_map, decide_eq_true_eq]
  constructor
  · rintro ⟨⟨p, hp, rfl⟩, h2⟩
    exact ⟨p, hp, rfl, rfl, h2⟩
  · rintro ⟨p, hp, hpat, hcnt, h2⟩
    refine ⟨⟨p, hp, ?_⟩, h2⟩
    cases e
    simp_all

/-- Transcript message repeating the same error pattern. -/
def tsErrMsg : Message := Message.mk Role.assistant "error TS2304: x" []

/-- Claim C6: the analyzer counts occurrences of each error label across
the whole transcript and emits in `repeatedErrors` exactly the labels
with at least 2 occurrences, one entry per label (label list has no
duplicates), sorted by count descending; a transcript with the same
error pattern appearing 5 times yields exactly one entry with
count 5. -/
theorem repeated_errors_dedup :
    (∀ (msgs : List Message) (e : RepeatedError),
      e ∈ (analyzeTranscript msgs).repeated_errors ↔
        ∃ p ∈ errorPatterns, e.pattern = p.1 ∧ e.count = matchCount msgs p.2
          ∧ 2 ≤ e.count)
  ∧ (∀ msgs : List Message,
      ((analyzeTranscript msgs).repeated_errors.map
        (fun e => e.pattern)).Nodup)
  ∧ (∀ msgs : List Message,
      (analyzeTranscript msgs).repeated_errors.Pairwise
        (fun a b => b.count ≤ a.count))
  ∧ (analyzeTranscript (List.replicate 5 tsErrMsg)).repeated_errors
      = [RepeatedError.mk "TypeScript compilation error" 5] := by
  refine ⟨fun msgs e => mem_repeatedErrors, fun msgs => ?_, fun msgs => ?_, by decide⟩
  · have hperm :
        List.Perm ((analyzeTranscript msgs).repeated_errors.map (fun e => e.pattern))
          (((repeatedCountsBase msgs).filter (fun e => 2 ≤ e.count)).map
            (fun e => e.pattern)) :=
      (sortByCountDesc_perm _).map _
    rw [hperm.nodup_iff]
    have hsub :
        (((repeatedCountsBase msgs).filter (fun e => 2 ≤ e.count)).map
          (fun e => e.pattern)).Sublist
          ((repeatedCountsBase msgs).map (fun e => e.pattern)) :=
      (List.filter_sublist _).map _
    refine hsub.nodup ?_
    rw [repeatedCountsBase, List.map_map]
    simp only [Function.comp_def]
    decide
  · exact sortByCountDesc_pairwise _

/-- The 600-character assistant message of the C7 instance. -/
def longAssistantMsg : Message :=
  Message.mk Role.assistant (String.mk (List.replicate 600 'x')) []

/-- The 20-character assistant message of the C7 instance. -/
def shortAssistantMsg : Message :=
  Message.mk Role.assistant (String.mk (List.replicate 20 'x')) []

set_option maxRecDepth 8000 in
/-- Claim C7: `meaningfulChanges` is true iff a file was modified, a
test run was detected, a phase completion was detected, the assistant
output length exceeds the fixed character threshold, or the output
contains a fenced code block; a 600-character assistant message with no
other signal yields true and a 20-character one yields false. -/
theorem meaningful_changes_iff :
    (∀ msgs : List Message,
      (analyzeTranscript msgs).meaningful_changes = true ↔
        ((analyzeTranscript msgs).files_modified ≠ []
          ∨ (analyzeTranscript msgs).tests_run = true
          ∨ (analyzeTranscript msgs).phase_completions ≠ []
          ∨ MEANINGFUL_OUTPUT_THRESHOLD < (assistantOutput msgs).length
          ∨ strHasSub (assistantOutput msgs) codeFence = true))
  ∧ (analyzeTranscript [longAssistantMsg]).meaningful_changes = true
  ∧ (analyzeTranscript [longAssistantMsg]).files_modified = []
  ∧ (analyzeTranscript [longAssistantMsg]).tests_run = false
  ∧ (analyzeTranscript [longAssistantMsg]).phase_completions = []
  ∧ (analyzeTranscript [shortAssistantMsg]).meaningful_changes = false := by
  refine ⟨fun msgs => ?_, by decide, by decide, by decide, by decide, by decide⟩
  show meaningfulChanges msgs = true ↔
    (filesModified msgs ≠ [] ∨ testsRun msgs = true ∨ phaseCompletions msgs ≠ []
      ∨ MEANINGFUL_OUTPUT_THRESHOLD < (assistantOutput msgs).length
      ∨ strHasSub (assistantOutput msgs) codeFence = true)
  rw [meaningfulChanges]
  simp [Bool.or_eq_true, List.isEmpty_iff, decide_eq_true_eq, or_assoc]

/-! ## Strategy engine theorems -/

theorem determineBaseStrategy_ne_recovery (i : Int) :
    determineBaseStrategy i ≠ StrategyName.recovery := by
  rw [determineBaseStrategy]
  split
  · simp
  · split <;> simp

theorem determineBaseStrategy_explore_iff (i : Int) :
    determineBaseStrategy i = StrategyName.explore ↔ i ≤ 10 := by
  rw [determineBaseStrategy, EXPLORE_END, FOCUSED_END]
  split
  · simp_all
  · split <;> simp_all

theorem determineBaseStrategy_focused_iff (i : Int) :
    determineBaseStrategy i = StrategyName.focused ↔ 11 ≤ i ∧ i ≤ 35 := by
  rw [determineBaseStrategy, EXPLORE_END, FOCUSED_END]
  split
  · simp
    omega
  · split <;> simp <;> omega

theorem determineBaseStrategy_cleanup_iff (i : Int) :
    determineBaseStrategy i = StrategyName.cleanup ↔ 36 ≤ i := by
  rw [determineBaseStrategy, EXPLORE_END, FOCUSED_END]
  split
  · simp
    omega
  · split <;> simp <;> omega

/-- A transcript analysis carrying no signal at all. -/
def cleanAnalysis : TranscriptAnalysis :=
  { errors := []
    repeated_errors := []
    files_modified := []
    tests_run := false
    tests_passed := false
    tests_failed := false
    phase_completions := []
    meaningful_changes := true }

/-- The strategy-engine input of the multiple-repeated-errors test:
iteration 5, no stuck condition. -/
def stateIter5 : RalphState :=
  { active := true
    iteration := 5
    max_iterations := 50
    completion_promise := "null"
    session_id := "ralph-test"
    checkpoint_interval := 0
    checkpoint_mode := "notify"
    strategy := StrategyInfo.mk StrategyName.explore 0
    progress := ProgressInfo.mk 0 0
    prompt_text := "Test prompt" }

/-- The repeated-errors list of the C1 instance. -/
def analysisABC : TranscriptAnalysis :=
  { cleanAnalysis with
      repeated_errors :=
        [ RepeatedError.mk "Error A" 2,
          RepeatedError.mk "Error B" 4,
          RepeatedError.mk "Error C" 3 ] }

/-- Claim C1: the engine returns strategy `recovery` with action
`switch` exactly when some `repeatedErrors` entry has count at least 3
or the stuck counter is at least 5, at every iteration (the recovery
condition overrides the phase table); for the repeated-errors list
(A,2),(B,4),(C,3) the returned reason names pattern B, the first entry
at or above the threshold. -/
theorem recovery_condition_iff :
    (∀ (state : RalphState) (analysis : TranscriptAnalysis),
      ((determineStrategy state analysis).strategy = StrategyName.recovery
          ∧ (determineStrategy state analysis).action = StrategyAction.switch)
        ↔ ((∃ e ∈ analysis.repeated_errors, REPEATED_ERROR_THRESHOLD ≤ e.count)
            ∨ STUCK_THRESHOLD ≤ state.progress.stuck_count))
  ∧ strHasSub (determineStrategy stateIter5 analysisABC).reason "Error B" = true
  ∧ (determineStrategy stateIter5 analysisABC).strategy = StrategyName.recovery := by
  refine ⟨fun state analysis => ?_, by decide, by decide⟩
  rw [determineStrategy]
  cases hfind : analysis.repeated_errors.find?
      (fun e => REPEATED_ERROR_THRESHOLD ≤ e.count) with
  | some e =>
    have hmem := List.mem_of_find?_eq_some hfind
    have hcnt : REPEATED_ERROR_THRESHOLD ≤ e.count := by
      have := List.find?_some hfind
      simpa using this
    exact iff_of_true ⟨rfl, rfl⟩ (Or.inl ⟨e, hmem, hcnt⟩)
  | none =>
    have hnone : ∀ e ∈ analysis.repeated_errors,
        ¬ REPEATED_ERROR_THRESHOLD ≤ e.count := by
      intro e he
      have := List.find?_eq_none.mp hfind e he
      simpa using this
    by_cases hstuck : STUCK_THRESHOLD ≤ state.progress.stuck_count
    · rw [if_pos hstuck]
      exact iff_of_true ⟨rfl, rfl⟩ (Or.inr hstuck)
    · rw [if_neg hstuck]
      constructor
      · rintro ⟨hs, -⟩
        exact absurd hs (determineBaseStrategy_ne_recovery _)
      · rintro (⟨e, he, hc⟩ | hs)
        · exact absurd hc (hnone e he)
        · exact absurd hs hstuck

/-- A state at iteration 0 with no recovery signal. -/
def stateIter0 : RalphState :=
  { stateIter5 with iteration := 0 }

/-- Counterexample to claim C2 as stated: at iteration 0 (the data
model's initial value) the computed strategy is `explore`, yet 0 is not
in the claimed range 1..10, so "explore iff 1 ≤ n ≤ 10" fails. -/
theorem phase_thresholds_zero_counterexample :
    ¬ (((determineStrategy stateIter0 cleanAnalysis).strategy = StrategyName.explore)
        ↔ (1 ≤ stateIter0.iteration ∧ stateIter0.iteration ≤ 10)) := by
  decide

/-- Claim C2 (amended): when no recovery condition holds, the computed
strategy is `explore` iff the iteration is at most 10 (iteration 0
included), `focused` iff it is between 11 and 35, `cleanup` iff it is
at least 36, independent of the prior strategy stored in the state. -/
theorem phase_thresholds_amended (state : RalphState) (analysis : TranscriptAnalysis)
    (hrep : ∀ e ∈ analysis.repeated_errors, e.count < REPEATED_ERROR_THRESHOLD)
    (hstuck : state.progress.stuck_count < STUCK_THRESHOLD) :
    ((determineStrategy state analysis).strategy = StrategyName.explore
        ↔ state.iteration ≤ 10)
  ∧ ((determineStrategy state analysis).strategy = StrategyName.focused
        ↔ 11 ≤ state.iteration ∧ state.iteration ≤ 35)
  ∧ ((determineStrategy state analysis).strategy = StrategyName.cleanup
        ↔ 36 ≤ state.iteration)
  ∧ (∀ prior : StrategyName,
      (determineStrategy
        { state with strategy := StrategyInfo.mk prior state.strategy.changed_at }
        analysis).strategy = (determineStrategy state analysis).strategy) := by
  have hfind : analysis.repeated_errors.find?
      (fun e => REPEATED_ERROR_THRESHOLD ≤ e.count) = none := by
    rw [List.find?_eq_none]
    intro e he
    simpa using Nat.not_le.mpr (hrep e he)
  have hs : ¬ STUCK_THRESHOLD ≤ state.progress.stuck_count := Nat.not_le.mpr hstuck
  have hbase : ∀ prior : StrategyName,
      (determineStrategy
        { state with strategy := StrategyInfo.mk prior state.strategy.changed_at }
        analysis).strategy = determineBaseStrategy (state.iteration : Int) := by
    intro prior
    rw [determineStrategy]
    simp only [hfind, hs, if_false]
  have hbase0 : (determineStrategy state analysis).strategy
      = determineBaseStrategy (state.iteration : Int) := by
    rw [determineStrategy]
    simp only [hfind, hs, if_false]
  rw [hbase0]
  refine ⟨?_, ?_, ?_, fun prior => hbase prior⟩
  · rw [determineBaseStrategy_explore_iff]
    omega
  · rw [determineBaseStrategy_focused_iff]
    omega
  · rw [determineBaseStrategy_cleanup_iff]
    omega

/-- Witness for the amended C2 theorem at iteration 5 with a clean
analysis. -/
theorem phase_thresholds_amended_witness :
    ((determineStrategy stateIter5 cleanAnalysis).strategy = StrategyName.explore
        ↔ stateIter5.iteration ≤ 10)
  ∧ ((determineStrategy stateIter5 cleanAnalysis).strategy = StrategyName.focused
        ↔ 11 ≤ stateIter5.iteration ∧ stateIter5.iteration ≤ 35)
  ∧ ((determineStrategy stateIter5 cleanAnalysis).strategy = StrategyName.cleanup
        ↔ 36 ≤ stateIter5.iteration)
  ∧ (∀ prior : StrategyName,
      (determineStrategy
        { stateIter5 with
            strategy := StrategyInfo.mk prior stateIter5.strategy.changed_at }
        cleanAnalysis).strategy
        = (determineStrategy stateIter5 cleanAnalysis).strategy) :=
  phase_thresholds_amended stateIter5 cleanAnalysis (by decide) (by decide)

/-! ## Stop-hook branch lemmas -/

theorem stopHookDecision_cap (st : LoopFileState) (obs : IterObs)
    (h : 0 < st.max_iterations ∧ st.max_iterations ≤ st.iteration) :
    stopHookDecision st obs = StopDecision.finish "max_iterations" := by
  rw [stopHookDecision, if_pos h]

theorem stopHookDecision_promise (st : LoopFileState) (obs : IterObs)
    (h1 : ¬ (0 < st.max_iterations ∧ st.max_iterations ≤ st.iteration))
    (h2 : obs.transcriptFound = true)
    (h3 : obs.hasAssistantMsg = true)
    (h4 : obs.lastOutput ≠ "")
    (h5 : promiseConfigured st.completion_promise = true)
    (h6 : extractPromise obs.lastOutput = st.completion_promise) :
    stopHookDecision st obs = StopDecision.finish "promise" := by
  have h7 : extractPromise obs.lastOutput ≠ "" := by
    rw [h6]
    intro hc
    rw [promiseConfigured, hc] at h5
    simp at h5
  rw [stopHookDecision, if_neg h1, if_neg (by simp [h2]), if_neg (by simp [h3]),
    if_neg h4, if_pos ⟨h5, h7, h6⟩]

theorem stopHookDecision_continue (st : LoopFileState) (obs : IterObs)
    (h1 : ¬ (0 < st.max_iterations ∧ st.max_iterations ≤ st.iteration))
    (h2 : obs.transcriptFound = true)
    (h3 : obs.hasAssistantMsg = true)
    (h4 : obs.lastOutput ≠ "")
    (h5 : promiseConfigured st.completion_promise = false)
    (h6 : obs.lockAcquired = true)
    (h7 : st.checkpoint_interval = 0)
    (h8 : estimatedTokens obs.transcriptBytes
        ≤ CONTEXT_WINDOW * CONTEXT_THRESHOLD / 100) :
    stopHookDecision st obs = StopDecision.continueLoop (st.iteration + 1)
      (determineStrategy (toRalphState st) obs.analysis).strategy := by
  rw [stopHookDecision, if_neg h1, if_neg (by simp [h2]), if_neg (by simp [h3]),
    if_neg h4, if_neg (by simp [h5]), if_neg (by simp [h6]), if_neg (by simp [h7]),
    if_neg (Nat.not_lt.mpr h8)]

theorem stopHookDecision_restart (st : LoopFileState) (obs : IterObs)
    (h1 : ¬ (0 < st.max_iterations ∧ st.max_iterations ≤ st.iteration))
    (h2 : obs.transcriptFound = true)
    (h3 : obs.hasAssistantMsg = true)
    (h4 : obs.lastOutput ≠ "")
    (h5 : promiseConfigured st.completion_promise = false)
    (h6 : obs.lockAcquired = true)
    (h7 : st.checkpoint_interval = 0)
    (h8 : CONTEXT_WINDOW * CONTEXT_THRESHOLD / 100
        < estimatedTokens obs.transcriptBytes) :
    stopHookDecision st obs = StopDecision.restartCycle (estimatedPct obs.transcriptBytes)
      (CycleHandoff.mk st.session_id st.cycle_number st.prompt_text
        (estimatedPct obs.transcriptBytes)) := by
  rw [stopHookDecision, if_neg h1, if_neg (by simp [h2]), if_neg (by simp [h3]),
    if_neg h4, if_neg (by simp [h5]), if_neg (by simp [h6]), if_neg (by simp [h7]),
    if_pos h8]

/-! ## Completion promise (claims C3 and C9) -/

/-- State at the iteration cap with a configured promise. -/
def stAtCap : LoopFileState :=
  { iteration := 3
    max_iterations := 3
    completion_promise := "DONE"
    session_id := "ralph-x"
    checkpoint_interval := 0
    checkpoint_pause := false
    cycle_number := 1
    strategy_current := StrategyName.explore
    stuck_count := 0
    prompt_text := "goal" }

/-- Observation whose last assistant output emits the promise. -/
def obsPromise : IterObs :=
  { transcriptFound := true
    hasAssistantMsg := true
    lastOutput := "<promise>DONE</promise>"
    transcriptBytes := 1000
    lockAcquired := true
    analysis := cleanAnalysis }

/-- Counterexample to claim C3 as stated: on an iteration where the cap
is also reached, the max-iterations check precedes the promise check,
so the loop finishes with reason max_iterations (outcome
PARTIAL/INCOMPLETE), not promise/COMPLETED — even though the emitted
tag content equals the configured phrase. -/
theorem promise_cap_precedence_counterexample :
    promiseConfigured stAtCap.completion_promise = true
  ∧ extractPromise obsPromise.lastOutput = stAtCap.completion_promise
  ∧ stopHookDecision stAtCap obsPromise = StopDecision.finish "max_iterations"
  ∧ stopHookDecision stAtCap obsPromise ≠ StopDecision.finish "promise"
  ∧ summaryOutcome "max_iterations" true ≠ "COMPLETED" := by
  decide

/-- Claim C3 (amended): when a completion promise is configured and the
iteration cap has not already been reached (the cap check precedes the
promise check), the loop terminates on the iteration where the agent
emits a delimited promise tag whose content, trimmed and
whitespace-collapsed, equals the configured phrase, with completion
reason promise and summary outcome COMPLETED. -/
theorem promise_completion_amended (st : LoopFileState) (obs : IterObs)
    (hcap : st.max_iterations = 0 ∨ st.iteration < st.max_iterations)
    (h2 : obs.transcriptFound = true)
    (h3 : obs.hasAssistantMsg = true)
    (h4 : obs.lastOutput ≠ "")
    (h5 : promiseConfigured st.completion_promise = true)
    (h6 : extractPromise obs.lastOutput = st.completion_promise) :
    stopHookDecision st obs = StopDecision.finish "promise"
  ∧ ∀ p, summaryOutcome "promise" p = "COMPLETED" := by
  have h1 : ¬ (0 < st.max_iterations ∧ st.max_iterations ≤ st.iteration) := by
    rcases hcap with h | h <;> omega
  exact ⟨stopHookDecision_promise st obs h1 h2 h3 h4 h5 h6,
    fun p => by simp [summaryOutcome]⟩

/-- State with remaining budget and a configured promise. -/
def stBudget : LoopFileState :=
  { stAtCap with iteration := 1, max_iterations := 50 }

/-- Witness for the amended C3 theorem: with budget remaining, the
promise emission finishes the loop with outcome COMPLETED. -/
theorem promise_completion_amended_witness :
    stopHookDecision stBudget obsPromise = StopDecision.finish "promise"
  ∧ ∀ p, summaryOutcome "promise" p = "COMPLETED" :=
  promise_completion_amended stBudget obsPromise (Or.inr (by decide))
    rfl rfl (by decide) (by decide) (by decide)

/-- Claim C9: when the last assistant message contains no promise
delimiter at all, the perl extraction leaves the whole message in
place, so a final message whose full text, trimmed and
whitespace-collapsed, equals the configured phrase also finishes the
loop with reason promise. -/
theorem promise_no_delimiter_fulltext (out : String) (st : LoopFileState) (obs : IterObs)
    (hno : strHasSub out "<promise>" = false)
    (hout : obs.lastOutput = out)
    (hcap : st.max_iterations = 0 ∨ st.iteration < st.max_iterations)
    (h2 : obs.transcriptFound = true)
    (h3 : obs.hasAssistantMsg = true)
    (h4 : out ≠ "")
    (h5 : promiseConfigured st.completion_promise = true)
    (heq : normalizeWs out = st.completion_promise) :
    extractPromise out = normalizeWs out
  ∧ stopHookDecision st obs = StopDecision.finish "promise" := by
  have hn : afterFirstSub openTag out.data = none := by
    cases h : afterFirstSub openTag out.data with
    | none => rfl
    | some r =>
      rw [strHasSub, show ("<promise>".data) = openTag from rfl, h] at hno
      simp at hno
  have hEx : extractPromise out = normalizeWs out := by
    rw [extractPromise, hn]
  refine ⟨hEx, stopHookDecision_promise st obs ?_ h2 h3 (by rw [hout]; exact h4) h5 ?_⟩
  · rcases hcap with h | h <;> omega
  · rw [hout, hEx, heq]

/-- Witness for C9: a tag-free final message whose normalized text is
the phrase finishes the loop as a promise completion. -/
theorem promise_no_delimiter_fulltext_witness :
    extractPromise "  DONE " = normalizeWs "  DONE "
  ∧ stopHookDecision stBudget
      { obsPromise with lastOutput := "  DONE " } = StopDecision.finish "promise" :=
  promise_no_delimiter_fulltext "  DONE " stBudget
    { obsPromise with lastOutput := "  DONE " }
    (by decide) rfl (Or.inr (by decide)) rfl rfl (by decide) (by decide) (by decide)

/-! ## Bounded run to the iteration cap (claim C5) -/

theorem runLoop_cap (obsAt : Nat → IterObs) :
    ∀ (fuel : Nat) (st : LoopFileState),
      0 < st.max_iterations →
      promiseConfigured st.completion_promise = false →
      st.checkpoint_interval = 0 →
      (∀ n, (obsAt n).transcriptFound = true ∧ (obsAt n).hasAssistantMsg = true
        ∧ (obsAt n).lastOutput ≠ "" ∧ (obsAt n).lockAcquired = true
        ∧ estimatedTokens (obsAt n).transcriptBytes
            ≤ CONTEXT_WINDOW * CONTEXT_THRESHOLD / 100) →
      st.iteration ≤ st.max_iterations →
      st.max_iterations + 1 - st.iteration ≤ fuel →
      runLoop obsAt fuel st
        = RunResult.finished "max_iterations" st.max_iterations
  | 0, st, _hpos, _, _, _, _hit, hfuel => absurd hfuel (by omega)
  | fuel + 1, st, hpos, hprom, hck, hobs, hit, hfuel => by
    obtain ⟨o1, o2, o3, o4, o5⟩ := hobs st.iteration
    by_cases hcap : st.max_iterations ≤ st.iteration
    · have hthis : st.iteration = st.max_iterations := Nat.le_antisymm hit hcap
      rw [runLoop, stopHookDecision_cap st _ ⟨hpos, hcap⟩, hthis]
    · rw [runLoop,
        stopHookDecision_continue st _ (by omega) o1 o2 o3 hprom o4 hck o5]
      exact runLoop_cap obsAt fuel _ hpos hprom hck hobs
        (Nat.succ_le_of_lt (Nat.lt_of_not_le hcap)) (by simp [applyContinue]; omega)

/-- Claim C5: a loop with maxIterations 3 and no completion promise,
run from any iteration at or below the cap with enough fuel and benign
per-iteration observations, terminates with reason max_iterations, and
the summary outcome for that reason is PARTIAL or INCOMPLETE, never
COMPLETED. -/
theorem max_iterations_partial_run (obsAt : Nat → IterObs) (st : LoopFileState)
    (fuel : Nat)
    (hmax : st.max_iterations = 3)
    (hprom : promiseConfigured st.completion_promise = false)
    (hck : st.checkpoint_interval = 0)
    (hobs : ∀ n, (obsAt n).transcriptFound = true ∧ (obsAt n).hasAssistantMsg = true
        ∧ (obsAt n).lastOutput ≠ "" ∧ (obsAt n).lockAcquired = true
        ∧ estimatedTokens (obsAt n).transcriptBytes
            ≤ CONTEXT_WINDOW * CONTEXT_THRESHOLD / 100)
    (hit : st.iteration ≤ 3)
    (hfuel : 4 - st.iteration ≤ fuel) :
    runLoop obsAt fuel st = RunResult.finished "max_iterations" 3
  ∧ ∀ p, (summaryOutcome "max_iterations" p = "PARTIAL"
        ∨ summaryOutcome "max_iterations" p = "INCOMPLETE")
      ∧ summaryOutcome "max_iterations" p ≠ "COMPLETED" := by
  constructor
  · have h := runLoop_cap obsAt fuel st (by omega) hprom hck hobs (by omega) (by omega)
    rw [hmax] at h
    exact h
  · intro p
    cases p <;> decide

/-- Benign per-iteration observation used by the C5 witness. -/
def benignObs : IterObs :=
  { transcriptFound := true
    hasAssistantMsg := true
    lastOutput := "working on it"
    transcriptBytes := 1000
    lockAcquired := true
    analysis := cleanAnalysis }

/-- Loop state freshly started with a cap of 3 and no promise. -/
def stCap3 : LoopFileState :=
  { iteration := 1
    max_iterations := 3
    completion_promise := "null"
    session_id := "ralph-y"
    checkpoint_interval := 0
    checkpoint_pause := false
    cycle_number := 1
    strategy_current := StrategyName.explore
    stuck_count := 0
    prompt_text := "goal" }

/-- Witness for C5 at the concrete started loop. -/
theorem max_iterations_partial_run_witness :
    runLoop (fun _ => benignObs) 5 stCap3 = RunResult.finished "max_iterations" 3
  ∧ ∀ p, (summaryOutcome "max_iterations" p = "PARTIAL"
        ∨ summaryOutcome "max_iterations" p = "INCOMPLETE")
      ∧ summaryOutcome "max_iterations" p ≠ "COMPLETED" :=
  max_iterations_partial_run (fun _ => benignObs) stCap3 5 rfl (by decide) rfl
    (fun _ => ⟨rfl, rfl,
      show benignObs.lastOutput ≠ "" by decide, rfl,
      show estimatedTokens benignObs.transcriptBytes
          ≤ CONTEXT_WINDOW * CONTEXT_THRESHOLD / 100 by decide⟩)
    (by decide) (by decide)

/-! ## Context threshold and cycle handoff (claim C4) -/

/-- Counterexample to claim C4 as stated: when the context-threshold
exit code 100 arrives with the cycle counter already at the configured
maximum, the supervisor increments past the `while` guard and lands in
the terminal (non-error) max-cycles state instead of starting another
running cycle, so "never transitions to a terminal state on this
condition" fails. -/
theorem context_threshold_max_cycles_counterexample :
    (supervisorStep 10 10 0 100).status = SupStatus.maxCyclesReached
  ∧ (supervisorStep 10 10 0 100).status ≠ SupStatus.running 11
  ∧ (supervisorStep 10 10 0 100).handoffSaved = true := by
  decide

/-- Claim C4 (amended): estimated context usage of 65 percent against
the 60 percent threshold makes the stop hook save a cycle handoff
(carrying the state's cycle number and objective) and restart the
cycle rather than finish the loop; on the resulting exit code 100 the
supervisor saves a handoff and increments the cycle counter, starting
the next running cycle whenever the incremented counter still passes
the max-cycles guard, and transitioning to the non-error terminal
max-cycles state otherwise; it never transitions to completed or
failed on this exit code. -/
theorem context_threshold_amended (st : LoopFileState) (obs : IterObs)
    (h1 : ¬ (0 < st.max_iterations ∧ st.max_iterations ≤ st.iteration))
    (h2 : obs.transcriptFound = true)
    (h3 : obs.hasAssistantMsg = true)
    (h4 : obs.lastOutput ≠ "")
    (h5 : promiseConfigured st.completion_promise = false)
    (h6 : obs.lockAcquired = true)
    (h7 : st.checkpoint_interval = 0)
    (hbytes : obs.transcriptBytes = 520000) :
    stopHookDecision st obs = StopDecision.restartCycle 65
      (CycleHandoff.mk st.session_id st.cycle_number st.prompt_text 65)
  ∧ (∀ maxCycles cycle retry, cycle + 1 ≤ maxCycles →
      supervisorStep maxCycles cycle retry 100
        = SupOutcome.mk (SupStatus.running (cycle + 1)) 0 true)
  ∧ (∀ maxCycles cycle retry,
      (supervisorStep maxCycles cycle retry 100).handoffSaved = true
      ∧ (supervisorStep maxCycles cycle retry 100).status ≠ SupStatus.completedRun
      ∧ ∀ e, (supervisorStep maxCycles cycle retry 100).status ≠ SupStatus.failedRun e) := by
  refine ⟨?_, ?_, ?_⟩
  · have hpct : estimatedPct obs.transcriptBytes = 65 := by
      rw [hbytes]
      decide
    have hgt : CONTEXT_WINDOW * CONTEXT_THRESHOLD / 100
        < estimatedTokens obs.transcriptBytes := by
      rw [hbytes]
      decide
    rw [stopHookDecision_restart st obs h1 h2 h3 h4 h5 h6 h7 hgt, hpct]
  · intro maxCycles cycle retry hle
    rw [supervisorStep, if_neg (by omega), if_pos rfl, if_pos hle]
  · intro maxCycles cycle retry
    rw [supervisorStep, if_neg (by omega), if_pos rfl]
    by_cases hle : cycle + 1 ≤ maxCycles
    · rw [if_pos hle]
      exact ⟨rfl, by simp, fun e => by simp⟩
    · rw [if_neg hle]
      exact ⟨rfl, by simp, fun e => by simp⟩

/-- Witness for the amended C4 theorem: a concrete loop at 65 percent
estimated context restarts the cycle with a saved handoff, and the
supervisor moves from cycle 1 to running cycle 2. -/
theorem context_threshold_amended_witness :
    stopHookDecision stCap3 { benignObs with transcriptBytes := 520000 }
      = StopDecision.restartCycle 65
        (CycleHandoff.mk stCap3.session_id stCap3.cycle_number stCap3.prompt_text 65)
  ∧ (∀ maxCycles cycle retry, cycle + 1 ≤ maxCycles →
      supervisorStep maxCycles cycle retry 100
        = SupOutcome.mk (SupStatus.running (cycle + 1)) 0 true)
  ∧ (∀ maxCycles cycle retry,
      (supervisorStep maxCycles cycle retry 100).handoffSaved = true
      ∧ (supervisorStep maxCycles cycle retry 100).status ≠ SupStatus.completedRun
      ∧ ∀ e, (supervisorStep maxCycles cycle retry 100).status ≠ SupStatus.failedRun e) :=
  context_threshold_amended stCap3 { benignObs with transcriptBytes := 520000 }
    (by decide) rfl rfl (by decide) (by decide) rfl rfl rfl

/-! ## Atomicity of the locked state save (claim C8) -/

theorem applyFsOps_cons (fs : FsState) (a : FsOp) (l : List FsOp) :
    applyFsOps fs (a :: l) = applyFsOps (applyFsOp fs a) l := rfl

theorem applyFsOps_append (fs : FsState) (l1 l2 : List FsOp) :
    applyFsOps fs (l1 ++ l2) = applyFsOps (applyFsOps fs l1) l2 := by
  simp [applyFsOps]

theorem stateFile_of_no_rename :
    ∀ (ops : List FsOp) (fs : FsState), FsOp.renameTempOverState ∉ ops →
      (applyFsOps fs ops).stateFile = fs.stateFile
  | [], _, _ => rfl
  | op :: rest, fs, h => by
    have hop : op ≠ FsOp.renameTempOverState := fun hc => h (hc ▸ List.mem_cons_self op rest)
    have hrest : FsOp.renameTempOverState ∉ rest := fun hc => h (List.mem_cons_of_mem op hc)
    rw [applyFsOps_cons, stateFile_of_no_rename rest _ hrest]
    cases op with
    | truncateTemp => rfl
    | appendTemp l => rfl
    | removeTemp => rfl
    | renameTempOverState => exact absurd rfl hop

theorem applyFsOps_appendTemp :
    ∀ (lines : List String) (fs : FsState),
      applyFsOps fs (lines.map FsOp.appendTemp)
        = FsState.mk fs.stateFile (fs.tempFile ++ lines)
  | [], fs => by simp [applyFsOps]
  | l :: ls, fs => by
    rw [List.map_cons, applyFsOps_cons, applyFsOps_appendTemp ls]
    simp [applyFsOp]

theorem boundaryOps_locked (next : Nat) (strat : String) (file : List String) :
    boundaryOps true next strat file
      = FsOp.truncateTemp ::
          ((sedUpdate next strat file).map FsOp.appendTemp
            ++ (if sedUpdate next strat file ≠ [] then [FsOp.renameTempOverState]
                else [FsOp.removeTemp])) := by
  simp [boundaryOps]

/-- Claim C8: the iteration-boundary save takes the exclusive lock with
a 5-second timeout; on lock failure nothing is written and the
previously persisted state is unchanged; when locked, sed writes into a
temporary file which is renamed over the state file, so after every
prefix of the operation sequence a reader of the state file sees either
the old contents or the fully rewritten contents, never a partial
write; and on a successful locked save of a non-empty file the state
file ends up holding exactly the rewritten contents. -/
theorem state_save_atomic (locked : Bool) (next : Nat) (strat : String)
    (file temp0 : List String) :
    LOCK_TIMEOUT_SECONDS = 5
  ∧ (locked = false →
      applyFsOps (FsState.mk file temp0) (boundaryOps locked next strat file)
        = FsState.mk file temp0)
  ∧ (∀ k, (applyFsOps (FsState.mk file temp0)
        ((boundaryOps locked next strat file).take k)).stateFile = file
      ∨ (applyFsOps (FsState.mk file temp0)
        ((boundaryOps locked next strat file).take k)).stateFile
          = sedUpdate next strat file)
  ∧ (locked = true → file ≠ [] →
      (applyFsOps (FsState.mk file temp0)
        (boundaryOps locked next strat file)).stateFile
        = sedUpdate next strat file) := by
  have hout_ne : file ≠ [] → sedUpdate next strat file ≠ [] := by
    intro h hc
    exact h (List.map_eq_nil_iff.mp hc)
  refine ⟨rfl, ?_, ?_, ?_⟩
  · rintro rfl
    rfl
  · intro k
    cases locked with
    | false =>
      left
      simp [boundaryOps, applyFsOps]
    | true =>
      rw [boundaryOps_locked]
      cases k with
      | zero => left; rfl
      | succ j =>
        rw [List.take_succ_cons, applyFsOps_cons]
        have htr : applyFsOp (FsState.mk file temp0) FsOp.truncateTemp
            = FsState.mk file [] := rfl
        rw [htr]
        by_cases hj : j ≤ ((sedUpdate next strat file).map FsOp.appendTemp).length
        · left
          rw [List.take_append_of_le_length hj]
          refine stateFile_of_no_rename _ _ ?_
          intro hmem
          have := List.take_subset j _ hmem
          rcases List.mem_map.mp this with ⟨l, -, hl⟩
          exact FsOp.noConfusion hl
        · have hlen : (((sedUpdate next strat file).map FsOp.appendTemp)
              ++ (if sedUpdate next strat file ≠ [] then [FsOp.renameTempOverState]
                  else [FsOp.removeTemp])).length ≤ j := by
            rw [List.length_append]
            simp only [List.length_map] at hj ⊢
            split <;> simp <;> omega
          rw [List.take_of_length_le hlen, applyFsOps_append,
            applyFsOps_appendTemp]
          by_cases hne : sedUpdate next strat file ≠ []
          · right
            rw [if_pos hne]
            rfl
          · left
            rw [if_neg hne]
            rfl
  · intro hl hfile
    subst hl
    rw [boundaryOps_locked, applyFsOps_cons]
    have htr : applyFsOp (FsState.mk file temp0) FsOp.truncateTemp
        = FsState.mk file [] := rfl
    rw [htr, applyFsOps_append, applyFsOps_appendTemp, if_pos (hout_ne hfile)]
    rfl

/-- Witness for C8: the lock-failure, whole-run, and prefix clauses at
a concrete two-line state file. -/
theorem state_save_atomic_witness :
    LOCK_TIMEOUT_SECONDS = 5
  ∧ applyFsOps (FsState.mk ["iteration: 1", "  current: \"explore\""] [])
      (boundaryOps false 2 "explore" ["iteration: 1", "  current: \"explore\""])
      = FsState.mk ["iteration: 1", "  current: \"explore\""] []
  ∧ (applyFsOps (FsState.mk ["iteration: 1", "  current: \"explore\""] [])
      (boundaryOps true 2 "explore" ["iteration: 1", "  current: \"explore\""])).stateFile
      = sedUpdate 2 "explore" ["iteration: 1", "  current: \"explore\""] :=
  ⟨(state_save_atomic true 2 "explore" ["iteration: 1", "  current: \"explore\""] []).1,
   (state_save_atomic false 2 "explore" ["iteration: 1", "  current: \"explore\""] []).2.1 rfl,
   (state_save_atomic true 2 "explore" ["iteration: 1", "  current: \"explore\""] []).2.2.2
     rfl (by decide)⟩

/-! ## Frame property of the sed rewrite (claim C10) -/

theorem leadSeg_within :
    ∀ (p q l : List Char), leadSeg p l = true → leadSeg q l = true →
      p.length ≤ q.length → leadSeg p q = true
  | [], _, _, _, _, _ => rfl
  | _ :: _, [], _, _, _, hlen => by simp at hlen
  | _ :: _, _ :: _, [], h1, _, _ => by simp [leadSeg] at h1
  | a :: ps, b :: qs, c :: cs, h1, h2, hlen => by
    simp only [leadSeg, Bool.and_eq_true, beq_iff_eq] at h1 h2 ⊢
    obtain ⟨h1a, h1b⟩ := h1
    obtain ⟨h2a, h2b⟩ := h2
    subst h1a
    subst h2a
    exact ⟨rfl, leadSeg_within ps qs cs h1b h2b (by simpa using hlen)⟩

theorem leadSeg_self_append : ∀ (p t : List Char), leadSeg p (p ++ t) = true
  | [], _ => rfl
  | a :: ps, t => by simp [leadSeg, leadSeg_self_append ps t]

/-- Two would-be leading segments of the same line must be comparable;
incomparable anchor strings exclude each other. -/
theorem strBegins_incompat {A B l : String}
    (hd : A.data.length ≤ B.data.length)
    (hAB : leadSeg A.data B.data = false)
    (h1 : strBegins A l = true) (h2 : strBegins B l = true) : False := by
  rw [strBegins] at h1 h2
  have h := leadSeg_within A.data B.data l.data h1 h2 hd
  rw [hAB] at h
  exact Bool.false_ne_true h

theorem strBegins_append_self (A t : String) : strBegins A (A ++ t) = true := by
  rw [strBegins, String.data_append]
  exact leadSeg_self_append A.data t.data

/-- Lines rewritten by the first sed rule begin with the iteration
anchor. -/
theorem sedIterLine_begins (n : Nat) :
    strBegins ("iteration: ") ("iteration: " ++ toString n) = true :=
  strBegins_append_self ("iteration: ") (toString n)

theorem sedCurrentLine_begins (strat : String) :
    strBegins ("  current: ")
      ("  current: " ++ String.mk ['"'] ++ strat ++ String.mk ['"']) = true := by
  have h : "  current: " ++ String.mk ['"'] ++ strat ++ String.mk ['"']
      = "  current: " ++ (String.mk ['"'] ++ strat ++ String.mk ['"']) := by
    simp [String.ext_iff, String.data_append, List.append_assoc]
  rw [h]
  exact strBegins_append_self _ _

/-- The stuck_count anchor excludes the iteration anchor. -/
theorem stuck_not_iteration {l : String}
    (h : strBegins ("iteration: ") l = true) :
    strBegins ("  stuck_count:") l = false := by
  cases hb : strBegins ("  stuck_count:") l with
  | false => rfl
  | true => exact absurd (strBegins_incompat (by decide) (by decide) h hb) not_false

/-- The stuck_count anchor excludes the current anchor. -/
theorem stuck_not_current {l : String}
    (h : strBegins ("  current: ") l = true) :
    strBegins ("  stuck_count:") l = false := by
  cases hb : strBegins ("  stuck_count:") l with
  | false => rfl
  | true => exact absurd (strBegins_incompat (by decide) (by decide) h hb) not_false

/-- The sed rewrite leaves every line that matches neither anchor
unchanged. -/
theorem sedLine_frame (next : Nat) (strat : String) (l : String)
    (h1 : strBegins ("iteration: ") l = false)
    (h2 : strBegins ("  current: ") l = false) :
    sedLine next strat l = l := by
  rw [sedLine, if_neg (by simp [h1]), if_neg (by simp [h2])]

theorem sedLine_dashes (n : Nat) (s : String) : sedLine n s "---" = "---" := by
  rw [sedLine, if_neg (by decide), if_neg (by decide)]

theorem sedLine_eq_dashes {n : Nat} {s l : String}
    (h : sedLine n s l = "---") : l = "---" := by
  rw [sedLine] at h
  split at h
  · have hlen := congrArg String.length h
    rw [String.length_append] at hlen
    have : ("iteration: ").length = 11 := by decide
    rw [this] at hlen
    have : ("---").length = 3 := by decide
    omega
  · split at h
    · have hlen := congrArg String.length h
      rw [String.length_append, String.length_append, String.length_append] at hlen
      have h11 : ("  current: ").length = 11 := by decide
      have h1q : (String.mk ['"']).length = 1 := by decide
      have h3 : ("---").length = 3 := by decide
      omega
    · exact h

/-- sedLine preserves the stuck_count anchor and fixes every line that
carries it. -/
theorem sedLine_stuck_pred (next : Nat) (strat : String) (l : String) :
    strBegins ("  stuck_count:") (sedLine next strat l)
      = strBegins ("  stuck_count:") l := by
  rw [sedLine]
  split
  · rename_i hb
    rw [stuck_not_iteration (sedIterLine_begins next), stuck_not_iteration hb]
  · split
    · rename_i hb
      have hc := sedCurrentLine_begins strat
      rw [show ("  current: " ++ String.mk ['"'] ++ strat ++ String.mk ['"'])
          = "  current: " ++ String.mk ['"'] ++ strat ++ String.mk ['"'] from rfl] at hc
      rw [stuck_not_current hc, stuck_not_current hb]
    · rfl

theorem sedLine_stuck_fix (next : Nat) (strat : String) (l : String)
    (h : strBegins ("  stuck_count:") l = true) :
    sedLine next strat l = l := by
  refine sedLine_frame next strat l ?_ ?_
  · cases hb : strBegins ("iteration: ") l with
    | false => rfl
    | true => rw [stuck_not_iteration hb] at h; exact absurd h (by simp)
  · cases hb : strBegins ("  current: ") l with
    | false => rfl
    | true => rw [stuck_not_current hb] at h; exact absurd h (by simp)

theorem fmAfter_map (f : String → String) (hf : f "---" = "---")
    (hf2 : ∀ l, f l = "---" → l = "---") :
    ∀ file : List String, fmAfter (file.map f) = (fmAfter file).map f
  | [] => rfl
  | l :: ls => by
    rw [List.map_cons, fmAfter, fmAfter]
    by_cases h : l = "---"
    · subst h
      rw [if_pos hf, if_pos rfl]
    · rw [if_neg (fun hc => h (hf2 l hc)), if_neg h]
      exact fmAfter_map f hf hf2 ls

theorem fmTake_map (f : String → String) (hf : f "---" = "---")
    (hf2 : ∀ l, f l = "---" → l = "---") :
    ∀ file : List String, fmTake (file.map f) = (fmTake file).map f
  | [] => rfl
  | l :: ls => by
    rw [List.map_cons, fmTake, fmTake]
    by_cases h : l = "---"
    · subst h
      rw [if_pos hf, if_pos rfl]
      rfl
    · rw [if_neg (fun hc => h (hf2 l hc)), if_neg h, List.map_cons,
        fmTake_map f hf hf2 ls]

theorem frontmatterOf_map (f : String → String) (hf : f "---" = "---")
    (hf2 : ∀ l, f l = "---" → l = "---") (file : List String) :
    frontmatterOf (file.map f) = (frontmatterOf file).map f := by
  rw [frontmatterOf, frontmatterOf, fmAfter_map f hf hf2, fmTake_map f hf hf2]

theorem find?_map_fix (p : String → Bool) (f : String → String)
    (hpf : ∀ l, p (f l) = p l) (hfix : ∀ l, p l = true → f l = l) :
    ∀ file : List String, (file.map f).find? p = file.find? p
  | [] => rfl
  | l :: ls => by
    rw [List.map_cons]
    cases h : p l with
    | true =>
      rw [List.find?_cons_of_pos (List.map f ls) (by rw [hpf l]; exact h),
        List.find?_cons_of_pos ls h, hfix l h]
    | false =>
      rw [List.find?_cons_of_neg (List.map f ls) (by rw [hpf l]; simp [h]),
        List.find?_cons_of_neg ls (by simp [h])]
      exact find?_map_fix p f hpf hfix ls

/-- A single boundary rewrite does not touch the frontmatter's
stuck_count line. -/
theorem nestedStuck_sedUpdate (n : Nat) (s : String) (file : List String) :
    nestedFieldLine (sedUpdate n s file) "stuck_count"
      = nestedFieldLine file "stuck_count" := by
  have hkey : ("  " ++ "stuck_count" ++ ":") = "  stuck_count:" := by decide
  rw [nestedFieldLine, nestedFieldLine, hkey, sedUpdate,
    frontmatterOf_map (sedLine n s) (sedLine_dashes n s)
      (fun l => sedLine_eq_dashes)]
  exact find?_map_fix _ _ (sedLine_stuck_pred n s) (sedLine_stuck_fix n s) _

theorem nestedStuck_applyUpdates :
    ∀ (ups : List (Nat × String)) (file : List String),
      nestedFieldLine (applyUpdates file ups) "stuck_count"
        = nestedFieldLine file "stuck_count"
  | [], _ => rfl
  | u :: rest, file => by
    rw [applyUpdates, nestedStuck_applyUpdates rest, nestedStuck_sedUpdate]

/-- A realistic state file whose prompt body happens to contain a line
beginning with the iteration anchor. -/
def fileC10 : List String :=
  [ "---", "active: true", "iteration: 2", "max_iterations: 10",
    "completion_promise: \"null\"", "session_id: \"ralph-z\"",
    "checkpoint_interval: 0", "strategy:", "  current: \"explore\"",
    "progress:", "  stuck_count: 0", "---",
    "Fix the bug.", "iteration: the loop counter" ]

/-- Counterexample to claim C10 as stated: sed is applied to the whole
state file, so a prompt-body line that begins with the iteration anchor
is rewritten too — the prompt text is not left unchanged by every
iteration-boundary update. -/
theorem sed_update_prompt_counterexample :
    bodyOf (sedUpdate 3 "explore" fileC10) ≠ bodyOf fileC10
  ∧ bodyOf fileC10 = ["Fix the bug.", "iteration: the loop counter"]
  ∧ bodyOf (sedUpdate 3 "explore" fileC10) = ["Fix the bug.", "iteration: 3"] := by
  decide

/-- Claim C10 (amended): the per-iteration rewrite maps the state file
line by line and changes exactly the lines beginning with the
`iteration: ` or two-space-indented `current: ` anchors, wherever they
occur (including inside the prompt body); every other line — among
them stuck_count, session_id, max_iterations, completion_promise and
the checkpoint settings — is left unchanged, and the frontmatter's
stuck_count line survives every sequence of iteration-boundary
updates, so a loop started with stuck_count 0 keeps stuck_count 0 for
its entire lifetime. -/
theorem sed_update_frame_amended (next : Nat) (strat : String) (file : List String)
    (ups : List (Nat × String)) :
    (∀ l, strBegins ("iteration: ") l = false →
      strBegins ("  current: ") l = false → sedLine next strat l = l)
  ∧ sedUpdate next strat file = file.map (sedLine next strat)
  ∧ nestedFieldLine (applyUpdates file ups) "stuck_count"
      = nestedFieldLine file "stuck_count" :=
  ⟨fun l => sedLine_frame next strat l, rfl, nestedStuck_applyUpdates ups file⟩

/-- Witness for the amended C10 theorem on the concrete state file:
the stuck_count line is untouched by a lifetime of two updates, and a
session_id line is left unchanged. -/
theorem sed_update_frame_amended_witness :
    sedLine 3 "focused" "session_id: \"ralph-z\"" = "session_id: \"ralph-z\""
  ∧ nestedFieldLine (applyUpdates fileC10 [(3, "explore"), (4, "focused")]) "stuck_count"
      = nestedFieldLine fileC10 "stuck_count"
  ∧ nestedFieldLine fileC10 "stuck_count" = some "  stuck_count: 0" :=
  ⟨(sed_update_frame_amended 3 "focused" fileC10 []).1 _ (by decide) (by decide),
   (sed_update_frame_amended 3 "focused" fileC10 [(3, "explore"), (4, "focused")]).2.2,
   by decide⟩

end Ralph
